import Mathlib

/-!
# Verification of the `domez` rendering runtime

A shallow embedding of the core of `src/packages/domez/lib/main.ts`:
the ordered-list reconciliation engine (`createList`), the ref state
machine (`createRef`), toggles (`createToggle`), signals (`createSignal`
on top of `createCallbackGroup`), ref resolution (`mountRefs`) and the
block-construction registration order (`createBlock`'s `context`).

The document tree is modelled positionally: the children of the parent
node that contains a list's managed region (or a toggle's anchor) are a
`List Nat` of node ids, in sibling order.  `insertBefore`, `before`,
`remove` and `nextSibling` follow the DOM specification: inserting an
already-attached node first detaches it, inserting a node before itself
is a no-op, and inserting before a detached reference node does nothing
(`parentNode` is `null`, so the optional call is skipped).
-/

namespace Domez

/-- A DOM node id. -/
abbrev NodeId := Nat

/-- `currentNode.parentNode?.insertBefore(newNode, currentNode)` —
the source's `insertBefore(currentNode, newNode)` helper (main.ts line
315), restricted to one parent whose children are `dom`.  If the
reference node is detached nothing happens; inserting a node before
itself leaves the tree unchanged (DOM pre-insert); otherwise the new
node is detached from its old position and spliced in immediately
before the reference node. -/
def insBefore (dom : List NodeId) (cur new : NodeId) : List NodeId :=
  if cur ∈ dom then
    if cur = new then dom
    else
      let rec place : List NodeId → List NodeId
        | [] => []
        | x :: xs => if x = cur then new :: x :: xs else x :: place xs
      place (dom.erase new)
  else dom

/-- `node.remove()` on this parent's child list. -/
def removeNode (dom : List NodeId) (n : NodeId) : List NodeId :=
  dom.erase n

/-- `node.nextSibling` within this parent's child list. -/
def nextSibling : List NodeId → NodeId → Option NodeId
  | [], _ => none
  | [_], _ => none
  | a :: b :: rest, x => if a = x then some b else nextSibling (b :: rest) x

/-- State of one `createList` instance (main.ts lines 321–521): the
sibling order of the managed region (`dom`, ending at the placeholder
when the invariant holds), the backing sequence `items` of block root
ids (a block's controller is identified with its root id here), the
placeholder text node's id, and a fresh-id counter for newly created
item blocks. -/
structure LState where
  dom : List NodeId
  items : List NodeId
  ph : NodeId
  fresh : NodeId
  deriving Repr, DecidableEq

/-- The list invariant stated by the spec: the backing sequence order
equals the live sibling order of the managed nodes and the placeholder
is the rightmost anchor. -/
def listInv (st : LState) : Prop :=
  st.dom = st.items ++ [st.ph]

instance (st : LState) : Decidable (listInv st) := by
  unfold listInv; infer_instance

/-- `createItem` (main.ts lines 329–337): a new block root is created
and ends up exactly where `insertAction` placed the temporary template
element (`block.mount` replaces the template element in place).  The
insert position is given as the reference node the template element is
inserted before. -/
def createItem (st : LState) (before : NodeId) : LState × NodeId :=
  let nid := st.fresh
  ({ st with dom := insBefore st.dom before nid, fresh := st.fresh + 1 }, nid)

/-- `list.push(data)` (main.ts lines 401–407): insert before the
placeholder, append to the backing sequence. -/
def pushL (st : LState) : LState :=
  let (st', nid) := createItem st st.ph
  { st' with items := st'.items ++ [nid] }

/-- `list.unshift(data)` (main.ts lines 394–400): insert before the
current first element (or the placeholder when empty), prepend. -/
def unshiftL (st : LState) : LState :=
  let (st', nid) := createItem st (st.items.headD st.ph)
  { st' with items := nid :: st'.items }

/-- `list.pop()` (main.ts lines 384–388): drop and unmount the last
entry; unmounting a block removes its root element. -/
def popL (st : LState) : LState × Option NodeId :=
  match st.items.getLast? with
  | none => (st, none)
  | some x =>
    ({ st with items := st.items.dropLast, dom := removeNode st.dom x }, some x)

/-- `list.shift()` (main.ts lines 389–393). -/
def shiftL (st : LState) : LState × Option NodeId :=
  match st.items.head? with
  | none => (st, none)
  | some x =>
    ({ st with items := st.items.tail, dom := removeNode st.dom x }, some x)

/-- `list.insert(index, data)` (main.ts lines 408–414): insert before
the element currently at `index` (the placeholder when out of range),
then splice into the backing sequence at `index`. -/
def insertL (st : LState) (index : Nat) : LState :=
  let (st', nid) := createItem st (st.items.getD index st.ph)
  { st' with items := st'.items.take index ++ nid :: st'.items.drop index }

/-- `list.set(index, data)` (main.ts lines 361–371): out-of-range index
throws; otherwise the replacement is created before the existing entry,
the old entry is unmounted and substituted in place. -/
def setL (st : LState) (index : Nat) : Except String LState :=
  if index ≥ st.items.length then
    .error "Item index is out of range"
  else
    let old := st.items.getD index 0
    let (st', nid) := createItem st old
    .ok { st' with
      items := st'.items.set index nid
      dom := removeNode st'.dom old }

/-- `list.swap(from, to)` (main.ts lines 415–436), verbatim: guard,
normalise so `from < to`, read both entries, capture
`fromItem.rootElement.nextSibling ?? placeholder`, exchange the two
backing entries, then perform the two `insertBefore` calls in source
order. -/
def swapL (st : LState) (fromI toI : Nat) : LState :=
  if st.items.length = 0 ∨ fromI = toI ∨
      fromI ≥ st.items.length ∨ toI ≥ st.items.length then st
  else
    let f := if fromI > toI then toI else fromI
    let t := if fromI > toI then fromI else toI
    let toItem := st.items.getD t 0
    let fromItem := st.items.getD f 0
    let nextFrom := (nextSibling st.dom fromItem).getD st.ph
    let items' := (st.items.set f toItem).set t fromItem
    let dom1 := insBefore st.dom toItem fromItem
    let dom2 := insBefore dom1 nextFrom toItem
    { st with items := items', dom := dom2 }

/-- `list.move(from, to)` (main.ts lines 437–452), verbatim: guard,
then `items.splice(to, 0, fromItem)` — which inserts the entry at `to`
WITHOUT removing it from its old slot — and
`toItem.rootElement.before(fromItem.rootElement)`. -/
def moveL (st : LState) (fromI toI : Nat) : LState :=
  if st.items.length = 0 ∨ fromI = toI ∨
      fromI ≥ st.items.length ∨ toI ≥ st.items.length then st
  else
    let toItem := st.items.getD toI 0
    let fromItem := st.items.getD fromI 0
    let items' := st.items.take toI ++ fromItem :: st.items.drop toI
    let dom' := insBefore st.dom toItem fromItem
    { st with items := items', dom := dom' }

/-- Stable insertion of `x` into `l` under the strict "comes before"
test `lt`: `x` lands after every already-placed element it is not
strictly before.  Together with `jsSort` this models the
ECMAScript-required stable comparator sort. -/
def insOrd (lt : NodeId → NodeId → Bool) (x : NodeId) : List NodeId → List NodeId
  | [] => [x]
  | y :: ys => if lt x y then x :: y :: ys else y :: insOrd lt x ys

/-- A stable sort by a JS comparator `c`: `a` strictly precedes `b`
when `c a b < 0`; ties keep original order. -/
def jsSort (c : NodeId → NodeId → Int) (l : List NodeId) : List NodeId :=
  l.foldl (fun acc x => insOrd (fun a b => c a b < 0) x acc) []

/-- `list.sort(sortFn)` (main.ts lines 453–464), verbatim: sort a copy
by the NEGATED comparator, then walk that copy inserting each root
before the previous anchor (starting from the placeholder) while
overwriting `items[index]` with the copy's entry. -/
def sortL (st : LState) (cmp : NodeId → NodeId → Int) : LState :=
  if st.items.length = 0 then st
  else
    let sorted := jsSort (fun a b => -(cmp a b)) st.items
    let dom' := (sorted.foldl
      (fun (p : List NodeId × NodeId) c => (insBefore p.1 p.2 c, c))
      (st.dom, st.ph)).1
    { st with items := sorted, dom := dom' }

/-- Result shape of `list.remove` with numeric arguments: the source
returns either a single (possibly absent) value or an array. -/
inductive RemoveRet where
  | single (c : Option NodeId)
  | many (cs : List NodeId)
  deriving Repr, DecidableEq

/-- `list.remove(index, count?)` (main.ts lines 498–505), verbatim:
`items.splice(index, count ?? 1)` removes the run and each removed
entry is unmounted (its root leaves the tree); then — as written in the
source — with `arguments.length > 1` the call returns `removed[0]` (the
raw block entry) and with a single argument it returns
`removed.map(x => x.controller)`. -/
def removeL (st : LState) (index : Nat) (count : Option Nat) : LState × RemoveRet :=
  let cnt := count.getD 1
  let removed := (st.items.drop index).take cnt
  let items' := st.items.take index ++ st.items.drop (index + cnt)
  let dom' := removed.foldl removeNode st.dom
  let st' := { st with items := items', dom := dom' }
  match count with
  | some _ => (st', .single removed.head?)
  | none => (st', .many removed)

/-- `list.first()` (main.ts lines 372–377), verbatim: `if
(items.length) throw "Cannot access the first item of empty list"`,
otherwise `items[0].controller` — reading `.controller` of `undefined`
on the (necessarily empty) list is a host type error. -/
def firstL (st : LState) : Except String NodeId :=
  if st.items.length ≠ 0 then
    .error "Cannot access the first item of empty list"
  else
    match st.items.head? with
    | some b => .ok b
    | none => .error "TypeError: undefined has no controller"

/-- `list.last()` (main.ts lines 378–383), verbatim, symmetric to
`firstL`. -/
def lastL (st : LState) : Except String NodeId :=
  if st.items.length ≠ 0 then
    .error "Cannot access the last item of empty list"
  else
    match st.items.getLast? with
    | some b => .ok b
    | none => .error "TypeError: undefined has no controller"

/-! ## Signals (`createCallbackGroup`, `createSignal`, main.ts 678–760) -/

/-- A signal cell: current value, state subscribers and (emit mode
only) action subscribers.  `createCallbackGroup` stores callbacks in an
insertion-ordered `Set`, so a subscriber list never holds duplicates
and notification order is subscription order; subscribers are
identified by ids here. -/
structure Sig (α : Type) where
  value : α
  ssubs : List Nat
  asubs : List Nat
  deriving Repr, DecidableEq

/-- The resolution of `set`'s argument (main.ts 713–715): a functional
argument is applied to the current value, any other argument is the new
value itself. -/
def resolveNext {α : Type} (x : α ⊕ (α → α)) (cur : α) : α :=
  match x with
  | .inl v => v
  | .inr f => f cur

/-- `set(nextState)` (main.ts lines 713–720), verbatim: resolve a
functional argument, return with no effect when the resolved value is
identical (`===`) to the current one, otherwise store it and call every
state listener with the new current value.  The second component is the
notification trace: `(listener, value)` pairs in call order. -/
def setSig {α : Type} [DecidableEq α] (sg : Sig α) (x : α ⊕ (α → α)) :
    Sig α × List (Nat × α) :=
  let nxt := resolveNext x sg.value
  if sg.value = nxt then (sg, [])
  else ({ sg with value := nxt }, sg.ssubs.map fun l => (l, nxt))

/-- One observable callback invocation during `emit`. -/
inductive Notif (α β : Type) where
  | act (l : Nat) (s : α) (a : β)
  | st (l : Nat) (s : α)
  deriving Repr, DecidableEq

/-- `emit(action)` (main.ts lines 755–758), verbatim:
`actionListeners.call(currentState, action)` followed by
`set(reducer(currentState, action))`.  The reducer is the one the
signal was created with.  The trace lists every callback invocation in
order. -/
def emitSig {α β : Type} [DecidableEq α] (sg : Sig α)
    (reducer : α → β → α) (a : β) : Sig α × List (Notif α β) :=
  let acts := sg.asubs.map fun l => Notif.act l sg.value a
  let res := setSig sg (Sum.inl (reducer sg.value a))
  (res.1, acts ++ res.2.map fun p => Notif.st p.1 p.2)

/-- `Set.add` semantics of `createCallbackGroup` (main.ts 681–689): an
already-present callback is not re-inserted and keeps its position. -/
def addSub (subs : List Nat) (l : Nat) : List Nat :=
  if l ∈ subs then subs else subs ++ [l]

/-- `on(listener, type)` (main.ts lines 725–731), verbatim: the target
group is the action group exactly when `type === "action"`; the
listener is invoked immediately with the current value exactly when
`type === "state"`; then it is added to the chosen group.  The second
component is the immediate (replay) invocation trace. -/
def onSub {α : Type} (sg : Sig α) (l : Nat) (type : Option String) :
    Sig α × List (Nat × α) :=
  let immediate := if type = some "state" then [(l, sg.value)] else []
  if type = some "action" then
    ({ sg with asubs := addSub sg.asubs l }, immediate)
  else
    ({ sg with ssubs := addSub sg.ssubs l }, immediate)

/-! ## Refs (`createRef`, main.ts 523–574) -/

/-- The observable state of one ref: the `mounted` flag plus counters
of how many times the `onMount`/`onUnmount` hooks have run (to make
"runs no hook" checkable). -/
structure RefS where
  mounted : Bool
  mountHookRuns : Nat
  unmountHookRuns : Nat
  deriving Repr, DecidableEq

/-- Invoking the callable handle (main.ts 535–540): throws while
unmounted, otherwise delegates to the accessor. -/
def invokeRef (r : RefS) : Except String Unit :=
  if r.mounted then .ok () else .error "The ref has not been mounted"

/-- `ref.mount(element)` (main.ts 544–551): throws when already
mounted; otherwise installs the accessor, flips `mounted` to true and
runs the `onMount` hook. -/
def mountRef (r : RefS) : Except String RefS :=
  if r.mounted then .error "Cannot re-mount. The ref has been mounted"
  else .ok { r with mounted := true, mountHookRuns := r.mountHookRuns + 1 }

/-- `ref.unmount()` (main.ts 552–556): returns immediately when not
mounted; otherwise flips `mounted` to false and runs the `onUnmount`
hook. -/
def unmountRef (r : RefS) : RefS :=
  if r.mounted then
    { r with mounted := false, unmountHookRuns := r.unmountHookRuns + 1 }
  else r

/-! ## Ref resolution (`mountRefs`, `generateRefAttribute`) -/

/-- An element's attribute-name set, in attribute order. -/
structure Elem where
  attrs : List String
  deriving Repr, DecidableEq

/-- `element.removeAttribute(name)`. -/
def removeAttribute (e : Elem) (name : String) : Elem :=
  ⟨e.attrs.erase name⟩

/-- `generateRefAttribute` (main.ts line 280): the marker carried in
markup for ref `id`, padded with spaces. -/
def generateRefAttribute (id : String) : String :=
  " data-ref-" ++ id ++ " "

/-- The attribute name `mountRefs` matches on (main.ts line 633):
`generateRefAttribute(ref.id).trim()`.  `generateRefAttribute` pads
with exactly one leading and one trailing space, so trimming it yields
`"data-ref-" ++ id` (ids carry no surrounding whitespace); the trim is
performed here because `String.trim` does not reduce in the kernel. -/
def markerAttr (id : String) : String :=
  "data-ref-" ++ id

/-- The attribute-strip step `mountRefs` performs on the matched
element before calling `ref.mount` (main.ts line 643), verbatim:
`refElement.removeAttribute(ref.id)` — the argument is the ref's id,
not the computed marker attribute name. -/
def stripStep (e : Elem) (id : String) : Elem :=
  removeAttribute e id

/-! ## Toggles (`createToggle`, main.ts 576–626) -/

/-- State of one toggle after its ref has mounted: the parent's child
order, the placeholder and subtree-root ids, and the visible flag
(internal `visible` starts `false`, main.ts line 583). -/
structure TogS where
  dom : List NodeId
  ph : NodeId
  root : NodeId
  visible : Bool
  deriving Repr, DecidableEq

/-- The `visible` setter (main.ts lines 604–612), verbatim: identical
value returns immediately; otherwise store it and either insert the
root before the placeholder or remove the root from the tree. -/
def setVisible (t : TogS) (v : Bool) : TogS :=
  if v = t.visible then t
  else
    let t' := { t with visible := v }
    if v then { t' with dom := insBefore t'.dom t'.ph t'.root }
    else { t' with dom := removeNode t'.dom t'.root }

/-- Mounting a toggle's ref on the marked element (main.ts 584–597):
the init inserts a fresh placeholder before the element and remembers
the element as the root (the element itself stays in the tree); the
`onMount` hook then assigns `toggle.visible = initialVisible` through
the setter, starting from the internal `visible = false`. -/
def mountToggle (dom : List NodeId) (ph root : NodeId)
    (initialVisible : Bool) : TogS :=
  let dom1 := insBefore dom root ph
  setVisible { dom := dom1, ph := ph, root := root, visible := false }
    initialVisible

/-! ## Registration order during construction (`createBlock`'s context,
main.ts 891–1080) -/

/-- A ref in the block's `refs` array, tagged by how it was registered
(the registration index is carried to track identity). -/
inductive RefEntry where
  | elem (i : Nat)
  | tog (i : Nat)
  deriving Repr, DecidableEq

/-- One registration a builder performs against its context during
construction. -/
inductive Reg where
  | relem (i : Nat)
  | rtoggle (i : Nat)
  | reff (i : Nat)
  deriving Repr, DecidableEq

/-- The effect of one context call on the block's `refs` array and
`effects` array: `context.ref` (and `list`, `on(...).bind`) does
`refs.push(ref)` (main.ts line 1033), `context.toggle` does
`refs.unshift(toggle.ref)` (main.ts line 1001), `context.effect` does
`effects.push(effect)` (main.ts line 1014). -/
def buildStep : List RefEntry × List Nat → Reg → List RefEntry × List Nat
  | (refs, effs), .relem i => (refs ++ [.elem i], effs)
  | (refs, effs), .rtoggle i => (.tog i :: refs, effs)
  | (refs, effs), .reff i => (refs, effs ++ [i])

/-- Running a whole construction script: the `refs` and `effects`
arrays as they stand when `Block.mount` starts resolving.  `mount`
resolves `refs` front to back (`mountRefs`, main.ts 628–646) and then
runs `effects` front to back (main.ts 1064–1067). -/
def buildRegs (script : List Reg) : List RefEntry × List Nat :=
  script.foldl buildStep ([], [])

/-- The toggle registrations of a script, in registration order. -/
def togglesOf : List Reg → List Nat
  | [] => []
  | .rtoggle i :: r => i :: togglesOf r
  | _ :: r => togglesOf r

/-- The non-toggle ref registrations of a script, in registration
order. -/
def elemsOf : List Reg → List Nat
  | [] => []
  | .relem i :: r => i :: elemsOf r
  | _ :: r => elemsOf r

/-- The effect registrations of a script, in registration order. -/
def effsOf : List Reg → List Nat
  | [] => []
  | .reff i :: r => i :: effsOf r
  | _ :: r => effsOf r

/-! ## Theorems -/

/-- Helper for C2: running a construction script from an arbitrary
accumulator front-loads every toggle ref (in reverse registration
order) and appends every other ref (in registration order); effects
accumulate in registration order. -/
theorem buildRegs_general (script : List Reg) :
    ∀ (refs : List RefEntry) (effs : List Nat),
      script.foldl buildStep (refs, effs) =
        ((togglesOf script).reverse.map RefEntry.tog ++ refs ++
          (elemsOf script).map RefEntry.elem,
         effs ++ effsOf script) := by
  induction script with
  | nil => intro refs effs; simp [togglesOf, elemsOf, effsOf]
  | cons hd tl ih =>
    intro refs effs
    cases hd with
    | relem i =>
      simp only [List.foldl_cons, buildStep, togglesOf, elemsOf, effsOf,
        ih (refs ++ [RefEntry.elem i]) effs]
      simp [List.append_assoc]
    | rtoggle i =>
      simp only [List.foldl_cons, buildStep, togglesOf, elemsOf, effsOf,
        ih (RefEntry.tog i :: refs) effs]
      simp [List.append_assoc]
    | reff i =>
      simp only [List.foldl_cons, buildStep, togglesOf, elemsOf, effsOf,
        ih refs (effs ++ [i])]
      simp [List.append_assoc]

/-- **C1** (code_bug evaluation).  The spec's mutation invariant —
backing order equals live sibling order with the placeholder as the
rightmost anchor — is broken by the source's `swap`, `move` and `sort`:
on a two-item list `swap(0, 1)` exchanges the backing entries but
leaves the tree order unchanged (`nextFrom` is captured before the
first `insertBefore`, so the second insertion is a self-insert no-op);
`move(0, 2)` on a three-item list leaves the backing sequence
`[1, 2, 1, 3]` — not a permutation, because `splice(to, 0, fromItem)`
never removes the moved entry; and `sort` with an ascending comparator
threads the tree in ascending order but stores the reverse
(descending) order in the backing sequence. -/
theorem C1_mutations_break_backing_tree_sync :
    (listInv ⟨[1, 2, 9], [1, 2], 9, 100⟩ ∧
      swapL ⟨[1, 2, 9], [1, 2], 9, 100⟩ 0 1 = ⟨[1, 2, 9], [2, 1], 9, 100⟩ ∧
      ¬ listInv (swapL ⟨[1, 2, 9], [1, 2], 9, 100⟩ 0 1)) ∧
    ((moveL ⟨[1, 2, 3, 9], [1, 2, 3], 9, 100⟩ 0 2).items = [1, 2, 1, 3] ∧
      (moveL ⟨[1, 2, 3, 9], [1, 2, 3], 9, 100⟩ 0 2).dom = [2, 1, 3, 9]) ∧
    (sortL ⟨[2, 1, 9], [2, 1], 9, 100⟩ (fun a b => (a : Int) - b) =
        ⟨[1, 2, 9], [2, 1], 9, 100⟩ ∧
      ¬ listInv (sortL ⟨[2, 1, 9], [2, 1], 9, 100⟩ (fun a b => (a : Int) - b))) := by
  decide

/-- **C2** (counterexample).  A builder that registers an element ref
and then a toggle ends up with the toggle FIRST in the block's `refs`
array (because `context.toggle` uses `refs.unshift`), so the toggle is
resolved before — not after — the earlier element ref. -/
theorem C2_toggle_resolved_before_earlier_ref :
    (buildRegs [Reg.relem 0, Reg.rtoggle 1]).1 =
      [RefEntry.tog 1, RefEntry.elem 0] ∧
    (buildRegs [Reg.relem 0, Reg.rtoggle 1]).1 ≠
      [RefEntry.elem 0, RefEntry.tog 1] := by
  decide

/-- **C2** (amended).  Mounting resolves refs in the order of the
block's `refs` array and then runs effects in registration order; since
`context.toggle` prepends while every other registration appends, that
resolution order is: all toggle refs in reverse registration order
first, followed by all other refs in registration order. -/
theorem C2_resolution_order_amended (script : List Reg) :
    buildRegs script =
      ((togglesOf script).reverse.map RefEntry.tog ++
        (elemsOf script).map RefEntry.elem,
       effsOf script) := by
  have h := buildRegs_general script [] []
  simpa [buildRegs] using h

/-- **C3** (code_bug evaluation).  On the three-item list `[1, 2, 3]`,
single-argument `remove(0)` returns the ARRAY `[controller 1]` and
two-argument `remove(0, 2)` returns the single first removed entry —
exactly the opposite shapes of the claim (and of the source's own
declared overloads `remove(index): C | undefined` /
`remove(index, count): C[]`).  The removal and unmount themselves are
the contiguous run. -/
theorem C3_remove_return_shapes_swapped :
    removeL ⟨[1, 2, 3, 9], [1, 2, 3], 9, 100⟩ 0 none =
      (⟨[2, 3, 9], [2, 3], 9, 100⟩, .many [1]) ∧
    removeL ⟨[1, 2, 3, 9], [1, 2, 3], 9, 100⟩ 0 (some 2) =
      (⟨[3, 9], [3], 9, 100⟩, .single (some 1)) ∧
    ∀ c, RemoveRet.many [1] ≠ RemoveRet.single c := by
  refine ⟨by decide, by decide, fun c h => by cases h⟩

/-- **C4** (code_bug evaluation).  `first()`/`last()` have the
emptiness test inverted (`if (items.length) throw ...`): on a NON-empty
one-item list both throw the "empty list" error, and on an empty list
they instead fall through to reading `.controller` of `undefined` (a
host type error) — so they never return a controller at all. -/
theorem C4_first_last_emptiness_inverted :
    firstL ⟨[5, 9], [5], 9, 100⟩ =
      .error "Cannot access the first item of empty list" ∧
    lastL ⟨[5, 9], [5], 9, 100⟩ =
      .error "Cannot access the last item of empty list" ∧
    firstL ⟨[9], [], 9, 100⟩ =
      .error "TypeError: undefined has no controller" ∧
    lastL ⟨[9], [], 9, 100⟩ =
      .error "TypeError: undefined has no controller" :=
  ⟨rfl, rfl, rfl, rfl⟩

/-- **C5** (code_bug evaluation).  A toggle created with initial
visibility `false`, mounted on element 3 sitting between siblings 7 and
8: mount inserts the placeholder 5 before the element but never
detaches it, and the `onMount` assignment `visible = initialVisible`
hits the setter's identity early-return (the internal flag already
starts `false`), so after mount `visible = false` while the subtree is
still attached.  Setting `visible` to its current value is indeed a
no-op. -/
theorem C5_hidden_toggle_stays_attached :
    mountToggle [7, 3, 8] 5 3 false =
      { dom := [7, 5, 3, 8], ph := 5, root := 3, visible := false } ∧
    (mountToggle [7, 3, 8] 5 3 false).visible = false ∧
    3 ∈ (mountToggle [7, 3, 8] 5 3 false).dom ∧
    setVisible (mountToggle [7, 3, 8] 5 3 false) false =
      mountToggle [7, 3, 8] 5 3 false := by
  decide

/-- **C6** (confirmed).  `set(x)`: when the resolved new value is
identical to the current one the signal is unchanged and nobody is
notified; otherwise the resolved value is stored and every state
subscriber is notified exactly once with the new value, in subscription
order. -/
theorem C6_set_notifies_once_in_order {α : Type} [DecidableEq α]
    (sg : Sig α) (x : α ⊕ (α → α)) (hnd : sg.ssubs.Nodup) :
    (resolveNext x sg.value = sg.value → setSig sg x = (sg, [])) ∧
    (resolveNext x sg.value ≠ sg.value →
      (setSig sg x).1.value = resolveNext x sg.value ∧
      (setSig sg x).2 = sg.ssubs.map (fun l => (l, resolveNext x sg.value)) ∧
      ∀ l ∈ sg.ssubs, ((setSig sg x).2.map Prod.fst).count l = 1) := by
  by_cases h : sg.value = resolveNext x sg.value
  · refine ⟨fun _ => by simp [setSig, if_pos h], fun hne => absurd h.symm hne⟩
  · refine ⟨fun he => absurd he.symm h, fun _ => ⟨?_, ?_, ?_⟩⟩
    · simp [setSig, if_neg h]
    · simp [setSig, if_neg h]
    · intro l hl
      have hmap : ((setSig sg x).2.map Prod.fst) = sg.ssubs := by
        simp [setSig, if_neg h, List.map_map, Function.comp_def]
      rw [hmap]
      exact List.count_eq_one_of_mem hnd hl

/-- **C6** witness: a concrete changed `set` notifies both subscribers,
in order, with the new value. -/
theorem C6_set_notifies_witness :
    (setSig (⟨0, [1, 2], []⟩ : Sig Nat) (Sum.inl 5)).2 = [(1, 5), (2, 5)] :=
  ((C6_set_notifies_once_in_order (⟨0, [1, 2], []⟩ : Sig Nat)
      (Sum.inl 5) (by decide)).2 (by decide)).2.1

/-- **C7** (confirmed).  `emit(a)` first invokes every action
subscriber with the pre-reduction value and the action, then applies
the reducer; state subscribers are notified with `r(s, a)` afterwards
exactly when it differs from `s`, and the stored value becomes
`r(s, a)` either way. -/
theorem C7_emit_action_then_state {α β : Type} [DecidableEq α]
    (sg : Sig α) (r : α → β → α) (a : β) :
    (emitSig sg r a).1.value = r sg.value a ∧
    (emitSig sg r a).2 =
      sg.asubs.map (fun l => Notif.act l sg.value a) ++
        (if r sg.value a = sg.value then []
         else sg.ssubs.map fun l => Notif.st l (r sg.value a)) := by
  by_cases h : sg.value = r sg.value a
  · constructor
    · simp [emitSig, setSig, resolveNext, if_pos h, ← h]
    · simp [emitSig, setSig, resolveNext, if_pos h, ← h]
  · constructor
    · simp [emitSig, setSig, resolveNext, if_neg h]
    · simp [emitSig, setSig, resolveNext, if_neg h, Ne.symm h,
        List.map_map, Function.comp]

/-- **C8** (confirmed).  The ref lifecycle: invoking an unmounted ref
fails; mounting a mounted ref fails; unmounting a not-mounted ref
changes nothing (and runs no hook), making unmount idempotent; a
successful mount sets the mounted flag and makes the handle
callable. -/
theorem C8_ref_lifecycle (r : RefS) :
    (r.mounted = false → invokeRef r = .error "The ref has not been mounted") ∧
    (r.mounted = true →
      mountRef r = .error "Cannot re-mount. The ref has been mounted") ∧
    (r.mounted = false → unmountRef r = r) ∧
    unmountRef (unmountRef r) = unmountRef r ∧
    (∀ r2, mountRef r = .ok r2 → r2.mounted = true ∧ invokeRef r2 = .ok ()) := by
  refine ⟨?_, ?_, ?_, ?_, ?_⟩
  · intro h; simp [invokeRef, h]
  · intro h; simp [mountRef, h]
  · intro h; simp [unmountRef, h]
  · by_cases h : r.mounted <;> simp [unmountRef, h]
  · intro r2 h2
    by_cases h : r.mounted
    · simp [mountRef, h] at h2
    · simp [mountRef, h] at h2
      subst h2
      simp [invokeRef]

/-- **C8** witness: concrete unmounted and mounted refs exercise every
hypothesis of the lifecycle theorem. -/
theorem C8_ref_lifecycle_witness :
    invokeRef ⟨false, 0, 0⟩ = .error "The ref has not been mounted" ∧
    mountRef ⟨true, 1, 0⟩ = .error "Cannot re-mount. The ref has been mounted" ∧
    unmountRef ⟨false, 0, 0⟩ = ⟨false, 0, 0⟩ ∧
    (∀ r2, mountRef ⟨false, 0, 0⟩ = .ok r2 →
      r2.mounted = true ∧ invokeRef r2 = .ok ()) :=
  ⟨(C8_ref_lifecycle ⟨false, 0, 0⟩).1 rfl,
   (C8_ref_lifecycle ⟨true, 1, 0⟩).2.1 rfl,
   (C8_ref_lifecycle ⟨false, 0, 0⟩).2.2.1 rfl,
   (C8_ref_lifecycle ⟨false, 0, 0⟩).2.2.2.2⟩

/-- **C9** (code_bug evaluation).  For ref id `"r"` the marker
attribute is `data-ref-r`, but the strip step executes
`removeAttribute(ref.id)` — attribute name `"r"` — which is a no-op on
an element carrying only the marker, so the mounted element still
carries `data-ref-r` when the initializer runs. -/
theorem C9_marker_not_stripped :
    markerAttr "r" = "data-ref-r" ∧
    stripStep ⟨["data-ref-r"]⟩ "r" = ⟨["data-ref-r"]⟩ ∧
    "data-ref-r" ∈ (stripStep ⟨["data-ref-r"]⟩ "r").attrs :=
  ⟨rfl, rfl, by simp [stripStep, removeAttribute]⟩

/-- **C10** (confirmed).  `on(listener)` with no kind argument adds the
listener to the state group with no immediate invocation; the
replay-on-subscribe invocation happens exactly when the kind argument
is `"state"`. -/
theorem C10_on_default_no_replay {α : Type} (sg : Sig α) (l : Nat) :
    onSub sg l none = ({ sg with ssubs := addSub sg.ssubs l }, []) ∧
    (∀ ty, (onSub sg l ty).2 =
      if ty = some "state" then [(l, sg.value)] else []) ∧
    (∀ ty, ty ≠ some "action" →
      (onSub sg l ty).1.ssubs = addSub sg.ssubs l ∧
      (onSub sg l ty).1.asubs = sg.asubs) := by
  refine ⟨rfl, ?_, ?_⟩
  · intro ty
    by_cases h1 : ty = some "action"
    · simp [onSub, h1]
    · simp [onSub, h1]
  · intro ty hty
    simp [onSub, hty]

end Domez
